import Mathlib

/-!
Verification of the ArmyQuiz application (src/app.py) against its
natural-language specification.  The Python code is shallowly embedded:
JSON values are an inductive type, persisted TEXT columns are `Option String`,
`json.loads` / `json.dumps` are an executable parser / serializer, and each
route handler of interest is a pure function from an explicit database state
to a new state plus a route outcome.
-/

namespace ArmyQuiz

/-- JSON values as produced by Python's `json.loads` (integers only: the data
this application stores never contains floats). -/
inductive Json where
  | null
  | bool (b : Bool)
  | num (n : Int)
  | str (s : String)
  | arr (elems : List Json)
  | obj (fields : List (String × Json))

mutual

/-- Decidable equality of JSON values (hand-written: the deriving handler does
not support this nested inductive). -/
def jsonDecEq : (a b : Json) → Decidable (a = b)
  | .null, .null => .isTrue rfl
  | .bool x, .bool y =>
    match decEq x y with
    | .isTrue h => .isTrue (h ▸ rfl)
    | .isFalse h => .isFalse (fun hh => h (Json.bool.inj hh))
  | .num x, .num y =>
    match decEq x y with
    | .isTrue h => .isTrue (h ▸ rfl)
    | .isFalse h => .isFalse (fun hh => h (Json.num.inj hh))
  | .str x, .str y =>
    match decEq x y with
    | .isTrue h => .isTrue (h ▸ rfl)
    | .isFalse h => .isFalse (fun hh => h (Json.str.inj hh))
  | .arr xs, .arr ys =>
    match jsonDecEqList xs ys with
    | .isTrue h => .isTrue (h ▸ rfl)
    | .isFalse h => .isFalse (fun hh => h (Json.arr.inj hh))
  | .obj xs, .obj ys =>
    match jsonDecEqObj xs ys with
    | .isTrue h => .isTrue (h ▸ rfl)
    | .isFalse h => .isFalse (fun hh => h (Json.obj.inj hh))
  | .null, .bool _ | .null, .num _ | .null, .str _ | .null, .arr _
  | .null, .obj _ | .bool _, .null | .bool _, .num _ | .bool _, .str _
  | .bool _, .arr _ | .bool _, .obj _ | .num _, .null | .num _, .bool _
  | .num _, .str _ | .num _, .arr _ | .num _, .obj _ | .str _, .null
  | .str _, .bool _ | .str _, .num _ | .str _, .arr _ | .str _, .obj _
  | .arr _, .null | .arr _, .bool _ | .arr _, .num _ | .arr _, .str _
  | .arr _, .obj _ | .obj _, .null | .obj _, .bool _ | .obj _, .num _
  | .obj _, .str _ | .obj _, .arr _ => .isFalse (fun h => Json.noConfusion h)

/-- Decidable equality of JSON arrays. -/
def jsonDecEqList : (a b : List Json) → Decidable (a = b)
  | [], [] => .isTrue rfl
  | [], _ :: _ => .isFalse (fun h => List.noConfusion h)
  | _ :: _, [] => .isFalse (fun h => List.noConfusion h)
  | x :: xs, y :: ys =>
    match jsonDecEq x y with
    | .isFalse h => .isFalse (fun hh => h (List.cons.inj hh).1)
    | .isTrue h1 =>
      match jsonDecEqList xs ys with
      | .isTrue h2 => .isTrue (h1 ▸ h2 ▸ rfl)
      | .isFalse h2 => .isFalse (fun hh => h2 (List.cons.inj hh).2)

/-- Decidable equality of JSON object field lists. -/
def jsonDecEqObj : (a b : List (String × Json)) → Decidable (a = b)
  | [], [] => .isTrue rfl
  | [], _ :: _ => .isFalse (fun h => List.noConfusion h)
  | _ :: _, [] => .isFalse (fun h => List.noConfusion h)
  | (k, v) :: xs, (k', v') :: ys =>
    match decEq k k' with
    | .isFalse h =>
      .isFalse (fun hh => h (congrArg Prod.fst (List.cons.inj hh).1))
    | .isTrue h0 =>
      match jsonDecEq v v' with
      | .isFalse h =>
        .isFalse (fun hh => h (congrArg Prod.snd (List.cons.inj hh).1))
      | .isTrue h1 =>
        match jsonDecEqObj xs ys with
        | .isTrue h2 => .isTrue (h0 ▸ h1 ▸ h2 ▸ rfl)
        | .isFalse h2 => .isFalse (fun hh => h2 (List.cons.inj hh).2)

end

instance : DecidableEq Json := jsonDecEq

/-- Python dict insertion semantics: re-assigning an existing key keeps its
position, a fresh key is appended.  Used by the object parser, so parsed
objects never contain duplicate keys. -/
def dictInsert : List (String × Json) → String → Json → List (String × Json)
  | [], k, v => [(k, v)]
  | (k', v') :: rest, k, v =>
    if k' = k then (k', v) :: rest else (k', v') :: dictInsert rest k v

/-- Lookup in a parsed JSON object (no duplicate keys, so first match). -/
def dictGet : List (String × Json) → String → Option Json
  | [], _ => none
  | (k', v) :: rest, k => if k' = k then some v else dictGet rest k

/-- Python `k in d`. -/
def dictHas (kvs : List (String × Json)) (k : String) : Bool :=
  (kvs.map Prod.fst).contains k

/-- Python `d.keys()` (insertion order, duplicates collapsed). -/
def dictKeys (kvs : List (String × Json)) : List String :=
  (kvs.map Prod.fst).eraseDups

/-- Python `d.get(k)`: `None` both for a missing key and for a stored null is
distinguished here (`some .null` vs `none`); call sites collapse the two the
same way the Python code does. -/
def Json.get : Json → String → Option Json
  | .obj kvs, k => dictGet kvs k
  | _, _ => none

/-- Python truthiness of a JSON-decoded value. -/
def jtruthy : Json → Bool
  | .null => false
  | .bool b => b
  | .num n => n != 0
  | .str s => s != ""
  | .arr xs => !xs.isEmpty
  | .obj kvs => !kvs.isEmpty

/-- Truthiness of a Python value that may be `None` (`Option Json`). -/
def pyTruthy : Option Json → Bool
  | none => false
  | some v => jtruthy v

/-- Python `a or b` on possibly-`None` values. -/
def pyOr (a b : Option Json) : Option Json :=
  if pyTruthy a then a else b

/-- Python string truthiness of a nullable TEXT column. -/
def truthyStr : Option String → Bool
  | none => false
  | some s => s != ""

/- ---------- json.dumps ---------- -/

/-- Escaping of one character inside a serialized JSON string (the subset of
Python's escaping exercised by this application's data). -/
def escChar (c : Char) : String :=
  if c = '"' then "\\\""
  else if c = '\\' then "\\\\"
  else if c = '\n' then "\\n"
  else if c = '\t' then "\\t"
  else if c = '\r' then "\\r"
  else String.singleton c

/-- Serialized JSON string literal. -/
def jstr (s : String) : String :=
  "\"" ++ String.join (s.data.map escChar) ++ "\""

/-- Comma-joining with Python's default `", "` separator. -/
def joinComma : List String → String
  | [] => ""
  | [x] => x
  | x :: xs => x ++ ", " ++ joinComma xs

mutual

/-- Python `json.dumps` with its default separators `", "` and `": "`. -/
def jdump : Json → String
  | .null => "null"
  | .bool true => "true"
  | .bool false => "false"
  | .num n => toString n
  | .str s => jstr s
  | .arr xs => "[" ++ joinComma (jdumpList xs) ++ "]"
  | .obj kvs => "\x7b" ++ joinComma (jdumpObj kvs) ++ "\x7d"

/-- Serialize every array element. -/
def jdumpList : List Json → List String
  | [] => []
  | x :: xs => jdump x :: jdumpList xs

/-- Serialize every object entry as `"key": value`. -/
def jdumpObj : List (String × Json) → List String
  | [] => []
  | (k, v) :: kvs => (jstr k ++ ": " ++ jdump v) :: jdumpObj kvs

end

/- ---------- json.loads ---------- -/

/-- JSON whitespace. -/
def wsChar (c : Char) : Bool :=
  c = ' ' || c = '\t' || c = '\n' || c = '\r'

/-- Drop leading JSON whitespace. -/
def skipWs : List Char → List Char
  | [] => []
  | c :: cs => if wsChar c then skipWs cs else c :: cs

/-- Parse the remainder of a JSON string literal (after the opening quote),
accumulating characters in reverse. -/
def parseStrAux : List Char → List Char → Option (String × List Char)
  | _, [] => none
  | acc, c :: cs =>
    if c = '"' then some (String.mk acc.reverse, cs)
    else if c = '\\' then
      match cs with
      | [] => none
      | e :: cs' =>
        if e = '"' then parseStrAux ('"' :: acc) cs'
        else if e = '\\' then parseStrAux ('\\' :: acc) cs'
        else if e = '/' then parseStrAux ('/' :: acc) cs'
        else if e = 'n' then parseStrAux ('\n' :: acc) cs'
        else if e = 't' then parseStrAux ('\t' :: acc) cs'
        else if e = 'r' then parseStrAux ('\r' :: acc) cs'
        else none
    else parseStrAux (c :: acc) cs

/-- Split a leading run of ASCII digits. -/
def parseDigits : List Char → List Char × List Char
  | [] => ([], [])
  | c :: cs =>
    if c.isDigit then
      let (d, r) := parseDigits cs
      (c :: d, r)
    else ([], c :: cs)

/-- Numeric value of a digit run. -/
def digitsVal (ds : List Char) : Nat :=
  ds.foldl (fun a c => a * 10 + (c.toNat - 48)) 0

mutual

/-- Recursive-descent JSON value parser (fuel-bounded). -/
def parseVal : Nat → List Char → Option (Json × List Char)
  | 0, _ => none
  | fuel + 1, cs =>
    match skipWs cs with
    | 'n' :: 'u' :: 'l' :: 'l' :: rest => some (.null, rest)
    | 't' :: 'r' :: 'u' :: 'e' :: rest => some (.bool true, rest)
    | 'f' :: 'a' :: 'l' :: 's' :: 'e' :: rest => some (.bool false, rest)
    | '"' :: rest =>
      match parseStrAux [] rest with
      | some (s, r) => some (.str s, r)
      | none => none
    | '[' :: rest => parseArrRest fuel rest
    | '\x7b' :: rest => parseObjRest fuel rest
    | '-' :: rest =>
      match parseDigits rest with
      | ([], _) => none
      | (ds, r) => some (.num (-(digitsVal ds : Int)), r)
    | c :: rest =>
      if c.isDigit then
        match parseDigits (c :: rest) with
        | (ds, r) => some (.num (digitsVal ds), r)
      else none
    | [] => none

/-- Parse an array body after `[`. -/
def parseArrRest : Nat → List Char → Option (Json × List Char)
  | 0, _ => none
  | fuel + 1, cs =>
    match skipWs cs with
    | ']' :: rest => some (.arr [], rest)
    | other => parseArrElems fuel [] other

/-- Parse comma-separated array elements. -/
def parseArrElems : Nat → List Json → List Char → Option (Json × List Char)
  | 0, _, _ => none
  | fuel + 1, acc, cs =>
    match parseVal fuel cs with
    | none => none
    | some (v, rest) =>
      match skipWs rest with
      | ',' :: rest' => parseArrElems fuel (v :: acc) rest'
      | ']' :: rest' => some (.arr (v :: acc).reverse, rest')
      | _ => none

/-- Parse an object body after the opening brace. -/
def parseObjRest : Nat → List Char → Option (Json × List Char)
  | 0, _ => none
  | fuel + 1, cs =>
    match skipWs cs with
    | '\x7d' :: rest => some (.obj [], rest)
    | other => parseObjElems fuel [] other

/-- Parse comma-separated `"key": value` object entries. -/
def parseObjElems : Nat → List (String × Json) → List Char →
    Option (Json × List Char)
  | 0, _, _ => none
  | fuel + 1, acc, cs =>
    match skipWs cs with
    | '"' :: rest =>
      match parseStrAux [] rest with
      | none => none
      | some (k, r1) =>
        match skipWs r1 with
        | ':' :: r2 =>
          match parseVal fuel r2 with
          | none => none
          | some (v, r3) =>
            match skipWs r3 with
            | ',' :: r4 => parseObjElems fuel (dictInsert acc k v) r4
            | '\x7d' :: r4 => some (.obj (dictInsert acc k v), r4)
            | _ => none
        | _ => none
    | _ => none

end

/-- Python `json.loads` on a whole string: `none` means the call raises
(malformed input). -/
def jparse (s : String) : Option Json :=
  match parseVal (s.length + 2) s.data with
  | some (v, rest) =>
    match skipWs rest with
    | [] => some v
    | _ => none
  | none => none

/- ---------- Python str helpers ---------- -/

/-- Characters removed by Python `str.strip()`. -/
def pyWs (c : Char) : Bool :=
  c = ' ' || c = '\t' || c = '\n' || c = '\r' || c = '\x0b' || c = '\x0c'

/-- Python `str.strip()`. -/
def pyStrip (s : String) : String :=
  String.mk (((s.data.dropWhile pyWs).reverse.dropWhile pyWs).reverse)

/-- Python `str.lower()` (ASCII range, which is all this data contains). -/
def lowerChar (c : Char) : Char :=
  if 'A' ≤ c ∧ c ≤ 'Z' then Char.ofNat (c.toNat + 32) else c

/-- Python `str.lower()` over a string. -/
def pyLower (s : String) : String :=
  String.mk (s.data.map lowerChar)

/-- Python `str.isdigit()` (non-empty, all digits). -/
def allDigits (s : String) : Bool :=
  s != "" && s.data.all Char.isDigit

/- ---------- Question Normalizer (src/app.py, normalize_questions) ---------- -/

/-- Lexicographic strict comparison of character lists by code point, the
order Python's `sorted` uses on strings (written out so the kernel can
evaluate it, unlike `String.ltb`). -/
def strLtB : List Char → List Char → Bool
  | [], [] => false
  | [], _ :: _ => true
  | _ :: _, [] => false
  | c :: cs, d :: ds =>
    if c < d then true else if d < c then false else strLtB cs ds

/-- The matching total order on strings (`a ≤ b` iff not `b < a`). -/
def strLe (a b : String) : Prop := strLtB b.data a.data = false

instance : DecidableRel strLe := fun a b =>
  inferInstanceAs (Decidable (_ = false))

theorem strLtB_asymm : ∀ {a b : List Char},
    strLtB a b = true → strLtB b a = false
  | [], [], h => by simp [strLtB] at h
  | [], _ :: _, _ => by simp [strLtB]
  | _ :: _, [], h => by simp [strLtB] at h
  | c :: cs, d :: ds, h => by
    by_cases hcd : c < d
    · have hdc : ¬ d < c := lt_asymm hcd
      simp [strLtB, hcd, hdc]
    · by_cases hdc : d < c
      · simp [strLtB, hcd, hdc] at h
      · simp only [strLtB, if_neg hcd, if_neg hdc] at h ⊢
        exact strLtB_asymm h

theorem strLtB_trans : ∀ {a b c : List Char},
    strLtB a b = true → strLtB b c = true → strLtB a c = true
  | [], _, _ :: _, _, _ => by simp [strLtB]
  | [], _ :: _, [], _, h2 => by simp [strLtB] at h2
  | [], [], [], h1, _ => by simp [strLtB] at h1
  | _ :: _, [], _, h1, _ => by simp [strLtB] at h1
  | _ :: _, _ :: _, [], _, h2 => by simp [strLtB] at h2
  | a :: as, b :: bs, c :: cs, h1, h2 => by
    by_cases hab : a < b
    · by_cases hbc : b < c
      · simp [strLtB, lt_trans hab hbc]
      · by_cases hcb : c < b
        · simp [strLtB, hbc, hcb] at h2
        · have : b = c := le_antisymm (not_lt.mp hcb) (not_lt.mp hbc)
          simp [strLtB, this ▸ hab]
    · by_cases hba : b < a
      · simp [strLtB, hab, hba] at h1
      · have hab' : a = b := le_antisymm (not_lt.mp hba) (not_lt.mp hab)
        subst hab'
        by_cases hac : a < c
        · simp [strLtB, hac]
        · by_cases hca : c < a
          · simp [strLtB, hac, hca] at h2
          · simp only [strLtB, if_neg hab, if_neg hba] at h1
            simp only [strLtB, if_neg hac, if_neg hca] at h2
            simp only [strLtB, if_neg hac, if_neg hca]
            exact strLtB_trans h1 h2

theorem strLtB_conn : ∀ {a b : List Char},
    strLtB a b = false → strLtB b a = false → a = b
  | [], [], _, _ => rfl
  | [], _ :: _, h1, _ => by simp [strLtB] at h1
  | _ :: _, [], _, h2 => by simp [strLtB] at h2
  | a :: as, b :: bs, h1, h2 => by
    by_cases hab : a < b
    · simp [strLtB, hab] at h1
    · by_cases hba : b < a
      · simp [strLtB, hba] at h2
      · have hab' : a = b := le_antisymm (not_lt.mp hba) (not_lt.mp hab)
        subst hab'
        simp only [strLtB, if_neg hab, if_neg hba] at h1 h2
        exact congrArg _ (strLtB_conn h1 h2)

instance : IsTotal String strLe :=
  ⟨fun a b => by
    unfold strLe
    cases h : strLtB b.data a.data
    · exact Or.inl rfl
    · exact Or.inr (strLtB_asymm h)⟩

instance : IsTrans String strLe :=
  ⟨fun a b c h1 h2 => by
    unfold strLe at h1 h2 ⊢
    cases hca : strLtB c.data a.data
    · rfl
    · exfalso
      cases hbc : strLtB b.data c.data
      · have : b.data = c.data := strLtB_conn hbc h2
        rw [← this] at hca
        rw [hca] at h1; cases h1
      · have : strLtB b.data a.data = true := strLtB_trans hbc hca
        rw [this] at h1; cases h1⟩

/-- Internal shape of one normalized question:
`\x7b 'text': str, 'options': [...], 'answer': int \x7d`. -/
structure NormQuestion where
  text : Json
  options : List Json
  answer : Int
deriving DecidableEq

/-- Resolution of the `options` field of one uploaded question
(src/app.py lines 105-118): a dict uses keys `a,b,c,d` in that fixed order
when any are present, otherwise all values sorted by key; a list is used
as-is; anything else is an error naming the question index. -/
def resolveOptions (idx : Nat) (opts : Json) : Except String (List Json) :=
  match opts with
  | .obj kvs =>
    let keys := (dictKeys kvs).insertionSort strLe
    let order := ["a", "b", "c", "d"].filter (fun k => dictHas kvs k)
    let ordered :=
      if order.isEmpty then keys.map (fun k => (dictGet kvs k).getD .null)
      else order.map (fun k => (dictGet kvs k).getD .null)
    .ok ordered
  | .arr xs => .ok xs
  | _ => .error s!"Question at index {idx} has invalid options type"

/-- Fallback answer resolution for a string answer that is not a single
alphabetic character after strip/lower (src/app.py lines 130-139):
exact match against an option value, else an all-digits string parsed as an
index, else an unknown-format error. -/
def strAnswerFallback (idx : Nat) (ansStr : String) (a : String)
    (options_list : List Json) : Except String Int :=
  match options_list.findIdx? (fun o => o == Json.str ansStr) with
  | some i => .ok (i : Int)
  | none =>
    if allDigits a then .ok ((digitsVal a.data : Nat) : Int)
    else .error s!"Question at index {idx} has unknown answer format"

/-- Resolution of the `answer` field of one uploaded question
(src/app.py lines 120-141), before the range check.  A Python `bool` is an
`int` (`True == 1`), so JSON `true`/`false` take the integer branch. -/
def resolveAnswerIdx (idx : Nat) (ans : Option Json)
    (options_list : List Json) : Except String Int :=
  match ans with
  | some (.num n) => .ok n
  | some (.bool b) => .ok (if b then 1 else 0)
  | some (.str ansStr) =>
    let a := pyLower (pyStrip ansStr)
    match a.data with
    | [c] =>
      if c.isAlpha then .ok ((c.toNat : Int) - 97)
      else strAnswerFallback idx ansStr a options_list
    | _ => strAnswerFallback idx ansStr a options_list
  | _ => .error s!"Question at index {idx} missing answer"

/-- Normalization of a single question object (src/app.py lines 92-146). -/
def normalizeQuestion (idx : Nat) (q : Json) : Except String NormQuestion :=
  match q with
  | .obj _ =>
    let text := pyOr (q.get "text") (pyOr (q.get "question") (q.get "q"))
    if !pyTruthy text then .error s!"Question at index {idx} is missing text"
    else
      match q.get "options" with
      | none => .error s!"Question at index {idx} is missing options"
      | some .null => .error s!"Question at index {idx} is missing options"
      | some opts =>
        match resolveOptions idx opts with
        | .error e => .error e
        | .ok options_list =>
          match resolveAnswerIdx idx (q.get "answer") options_list with
          | .error e => .error e
          | .ok answer_index =>
            if 0 ≤ answer_index ∧ answer_index < (options_list.length : Int)
            then .ok ⟨text.getD .null, options_list, answer_index⟩
            else .error
              s!"Question at index {idx} has answer index {answer_index} out of range"
  | _ => .error s!"Question at index {idx} is not an object"

/-- The enumerated loop of `normalize_questions`. -/
def normList (idx : Nat) : List Json → Except String (List NormQuestion)
  | [] => .ok []
  | q :: rest =>
    match normalizeQuestion idx q with
    | .error e => .error e
    | .ok nq =>
      match normList (idx + 1) rest with
      | .error e => .error e
      | .ok out => .ok (nq :: out)

/-- src/app.py `normalize_questions`: parsed upload JSON to the canonical
question list, or a validation error. -/
def normalize_questions (raw : Json) : Except String (List NormQuestion) :=
  match raw with
  | .arr qs => normList 0 qs
  | _ => .error "Questions JSON must be a list of question objects"

/- ---------- Data model (src/app.py ORM classes) ---------- -/

/-- src/app.py `User` (the fields the core routes read). -/
structure User where
  id : Nat
  role : String
deriving DecidableEq

/-- src/app.py `Quiz`. -/
structure Quiz where
  id : Nat
  questions_json : Option String
  duration : Int
deriving DecidableEq

/-- src/app.py `Room` (membership inlined as the list of student ids). -/
structure Room where
  id : Nat
  teacher_id : Nat
  quiz_id : Option Nat
  is_active : Bool
  quiz_start_time : Option Int
  students : List Nat
deriving DecidableEq

/-- src/app.py `StudentQuizResult` (the SubmissionRecord). -/
structure StudentQuizResult where
  student_id : Nat
  room_id : Nat
  score : Int
  answers_json : Option String
  started : Option Int
deriving DecidableEq

/-- src/app.py `AnswerSheet`. -/
structure AnswerSheet where
  student_id : Nat
  room_id : Nat
  score : Int
  details_json : Option String
  auto_submit_reason : Option String
  created_at : Int
deriving DecidableEq

/-- The persisted database state the core routes touch. -/
structure DB where
  quizzes : List Quiz
  results : List StudentQuizResult
  sheets : List AnswerSheet
deriving DecidableEq

/-- `Quiz.query.get(qid)`. -/
def getQuiz (db : DB) (qid : Nat) : Option Quiz :=
  db.quizzes.find? (fun q => q.id == qid)

/-- Row predicate for `StudentQuizResult.query.filter_by(student_id=, room_id=)`. -/
def resultKey (sid rid : Nat) (r : StudentQuizResult) : Bool :=
  r.student_id == sid && r.room_id == rid

/-- Row predicate for `AnswerSheet.query.filter_by(student_id=, room_id=)`. -/
def sheetKey (sid rid : Nat) (s : AnswerSheet) : Bool :=
  s.student_id == sid && s.room_id == rid

/-- `filter_by(...).first()` on the result table. -/
def findResult (db : DB) (sid rid : Nat) : Option StudentQuizResult :=
  db.results.find? (resultKey sid rid)

/-- `filter_by(...).first()` on the sheet table. -/
def findSheet (db : DB) (sid rid : Nat) : Option AnswerSheet :=
  db.sheets.find? (sheetKey sid rid)

/-- Update the first row matching a predicate (the ORM object returned by
`first()` is mutated in place). -/
def updFirst (p : α → Bool) (f : α → α) : List α → List α
  | [] => []
  | x :: xs => if p x then f x :: xs else x :: updFirst p f xs

/-- The serialized empty dict, the "not yet submitted" sentinel. -/
def emptyMapStr : String := "\x7b\x7d"

/-- Python `r.answers_json and r.answers_json != "\x7b\x7d"`. -/
def submittedFlag (aj : Option String) : Bool :=
  truthyStr aj && aj != some emptyMapStr

/- ---------- Room Finalizer (src/app.py, finalize_room_submissions) -------- -/

/-- The all-unanswered map `\x7b str(i): -1 for i in range(n) \x7d`. -/
def answersDict (n : Nat) : Json :=
  .obj ((List.range n).map (fun i => (toString i, Json.num (-1))))

/-- `json.dumps` of the all-unanswered map. -/
def defaultAnswersJson (n : Nat) : String :=
  jdump (answersDict n)

/-- Python `q.get('text') or q.get('question') or q.get('q') or ''`. -/
def textOrEmpty (q : Json) : Json :=
  (pyOr (q.get "text")
    (pyOr (q.get "question") (pyOr (q.get "q") (some (.str ""))))).getD (.str "")

/-- One entry of a details list (key order is the dict-literal insertion
order of src/app.py lines 189-196 / 642-649). -/
def detailEntry (i : Nat) (q : Json) (student_choice : Int) (correct : Bool) :
    Json :=
  .obj [("index", .num i),
        ("question", textOrEmpty q),
        ("options", (q.get "options").getD (.arr [])),
        ("correct_answer", (q.get "answer").getD .null),
        ("student_choice", .num student_choice),
        ("correct", .bool correct)]

/-- The details list built by the finalizer: every choice `-1`, nothing
correct (src/app.py lines 185-196). -/
def finalizeDetails (questions : List Json) : Json :=
  .arr (questions.enum.map (fun iq => detailEntry iq.1 iq.2 (-1) false))

/-- Create or update the AnswerSheet for one auto-submitted student
(src/app.py lines 197-205).  A fresh sheet gets `created_at` from the column
default (`datetime.utcnow`), reason `'auto'`; an existing sheet keeps a
truthy reason (`sheet.auto_submit_reason or 'auto'`). -/
def finalizeSheet (rid : Nat) (questions : List Json) (now : Int) (db : DB)
    (sid : Nat) : DB :=
  match findSheet db sid rid with
  | none =>
    { db with sheets := db.sheets ++
        [⟨sid, rid, 0, some (jdump (finalizeDetails questions)), some "auto",
          now⟩] }
  | some _ =>
    let upd := fun (sh : AnswerSheet) =>
      { sh with score := 0,
                details_json := some (jdump (finalizeDetails questions)),
                created_at := now,
                auto_submit_reason :=
                  if truthyStr sh.auto_submit_reason
                  then sh.auto_submit_reason else some "auto" }
    { db with sheets := updFirst (sheetKey sid rid) upd db.sheets }

/-- The per-student body of the finalize loop (src/app.py lines 163-205):
create a default record when none exists, skip an already-submitted student
entirely, otherwise auto-submit with all `-1` answers and score 0. -/
def finalizeStudent (rid : Nat) (questions : List Json) (now : Int) (db : DB)
    (sid : Nat) : DB :=
  match findResult db sid rid with
  | none =>
    let db' := { db with results := db.results ++
        [⟨sid, rid, 0, some (defaultAnswersJson questions.length), none⟩] }
    finalizeSheet rid questions now db' sid
  | some r =>
    if submittedFlag r.answers_json then db
    else
      let upd := fun (r : StudentQuizResult) =>
        { r with score := 0,
                 answers_json := some (defaultAnswersJson questions.length) }
      let db' := { db with results := updFirst (resultKey sid rid) upd
                              db.results }
      finalizeSheet rid questions now db' sid

/-- The `json.loads(quiz.questions_json)` of the finalizer, as an option:
`none` whenever the guarded expression falls back to `[]` (no quiz row,
NULL or empty text, or a parse failure caught by the `try`). -/
def loadsQuestions (room : Room) (db : DB) : Option Json :=
  match room.quiz_id with
  | none => none
  | some qid =>
    match getQuiz db qid with
    | none => none
    | some quiz =>
      match quiz.questions_json with
      | none => none
      | some s => if s = "" then none else jparse s

/-- Python `isinstance(q, dict)` on a JSON value. -/
def isObjJson : Json → Bool
  | .obj _ => true
  | _ => false

/-- src/app.py `finalize_room_submissions`.  A `none` room or a room without
a quiz returns immediately.  When the stored blob parses to something other
than a list, or to a list containing a non-dict element that some processed
student's detail loop would touch, the Python loop raises before
`db.session.commit()`, so nothing is persisted: both cases leave the
database unchanged (all callers swallow the exception). -/
def finalize_room_submissions (room? : Option Room) (db : DB) (now : Int) :
    DB :=
  match room? with
  | none => db
  | some room =>
    match room.quiz_id with
    | none => db
    | some _ =>
      match loadsQuestions room db with
      | none => room.students.foldl (finalizeStudent room.id [] now) db
      | some (.arr qs) =>
        if qs.all isObjJson then
          room.students.foldl (finalizeStudent room.id qs now) db
        else db
      | some _ => db

/- ---------- Quiz Clock and routes ---------- -/

/-- The remaining-time computation of the quiz-taking view
(src/app.py lines 674-675): `max(0, quiz.duration*60 - elapsed)` with
`elapsed = now - quiz_start_time`, in seconds. -/
def remainingSeconds (now startT durationMinutes : Int) : Int :=
  max 0 (durationMinutes * 60 - (now - startT))

/-- Spec 4.2, modelled from its words for comparison:
`remainingSeconds(now, quizStartTime, durationMinutes) =
 max(0, durationMinutes*60 - (now - quizStartTime))`, and 0 when
`quizStartTime` is absent. -/
def remainingSecondsSpec (now : Int) (startT : Option Int)
    (durationMinutes : Int) : Int :=
  match startT with
  | none => 0
  | some t0 => max 0 (durationMinutes * 60 - (now - t0))

/-- HTTP method of the quiz-taking view. -/
inductive Method where
  | get
  | post
deriving DecidableEq

/-- The request form of a POST submit: `answers i` is
`int(request.form.get('q' ++ toString i, -1))` (the template posts integer
option indices; a missing field defaults to `-1`), plus the optional
`auto_submit_reason` field. -/
structure SubmitForm where
  answers : Nat → Int
  auto_submit_reason : Option String

/-- Outcome of the quiz-taking view.  `fatal` stands for an uncaught Python
exception (HTTP 500); rendering of `take_quiz.html` itself is outside the
model, so `quizPage` carries the remaining seconds handed to the template. -/
inductive RouteResult where
  | redirectIndex
  | redirectRoomPage
  | submitted (score : Int)
  | expired
  | quizPage (remaining : Int)
  | fatal
deriving DecidableEq

/-- Record-start bookkeeping of src/app.py lines 623-629: create the record
with the `"\x7b\x7d"` sentinel on first view, else set `started` once. -/
def startRecord (uid rid : Nat) (now : Int) (db : DB) : DB :=
  match findResult db uid rid with
  | none =>
    { db with results := db.results ++
        [⟨uid, rid, 0, some emptyMapStr, some now⟩] }
  | some r =>
    if r.started = none then
      let upd := fun (r : StudentQuizResult) => { r with started := some now }
      { db with results := updFirst (resultKey uid rid) upd db.results }
    else db

/-- Python `v == q['answer']` for an `int` form value `v`
(a JSON `true`/`false` is the int 1/0; other types never equal an int). -/
def jeqInt (j : Json) (v : Int) : Bool :=
  match j with
  | .num m => m == v
  | .bool b => (if b then (1 : Int) else 0) == v
  | _ => false

/-- The submitted-answers dict `\x7b str(i): answers[i] \x7d`. -/
def submittedAnswers (n : Nat) (f : Nat → Int) : Json :=
  .obj ((List.range n).map (fun i => (toString i, Json.num (f i))))

/-- The POST branch of the quiz-taking view (src/app.py lines 631-671),
entered with the record row already present. -/
def postSubmit (uid rid : Nat) (questions : List Json) (form : SubmitForm)
    (now : Int) (db : DB) : DB × RouteResult :=
  let n := questions.length
  let score : Int :=
    ((questions.enum.countP
      (fun iq => jeqInt ((iq.2.get "answer").getD .null)
        (form.answers iq.1))) : Nat)
  let details := Json.arr (questions.enum.map
    (fun iq => detailEntry iq.1 iq.2 (form.answers iq.1)
      (jeqInt ((iq.2.get "answer").getD .null) (form.answers iq.1))))
  let updR := fun (r : StudentQuizResult) =>
    { r with score := score,
             answers_json := some (jdump (submittedAnswers n form.answers)) }
  let db2 := { db with results := updFirst (resultKey uid rid) updR
                          db.results }
  let reason := form.auto_submit_reason
  let updS := fun (sh : AnswerSheet) =>
    { sh with score := score,
              details_json := some (jdump details),
              created_at := now,
              auto_submit_reason :=
                if truthyStr reason then reason else sh.auto_submit_reason }
  let db3 :=
    match findSheet db2 uid rid with
    | none =>
      { db2 with sheets := db2.sheets ++
          [⟨uid, rid, score, some (jdump details), reason, now⟩] }
    | some _ =>
      { db2 with sheets := updFirst (sheetKey uid rid) updS db2.sheets }
  (db3, .submitted score)

/-- src/app.py `start_quiz_student` (the quiz-taking view).  Note the shape
of the source: the POST branch never consults the clock; only the GET branch
computes the remaining time and, at 0, finalizes the room and redirects.
A POST whose questions list contains a non-dict element or a dict without an
`'answer'` key raises at the score computation, before any submit write. -/
def start_quiz_student (user? : Option User) (room : Room) (db : DB)
    (now : Int) (method : Method) (form : SubmitForm) : DB × RouteResult :=
  match user? with
  | none => (db, .redirectIndex)
  | some user =>
    if user.role ≠ "student" ∨ user.id ∉ room.students then
      (db, .redirectIndex)
    else
      let quiz? := match room.quiz_id with
        | none => none
        | some qid => getQuiz db qid
      match quiz?, room.quiz_start_time with
      | none, _ => (db, .redirectRoomPage)
      | some _, none => (db, .redirectRoomPage)
      | some quiz, some startT =>
        match (match quiz.questions_json with
               | none => none
               | some s => jparse s) with
        | none => (db, .fatal)
        | some qjson =>
          let db1 := startRecord user.id room.id now db
          match method with
          | .post =>
            match qjson with
            | .arr questions =>
              if questions.all
                  (fun q => isObjJson q && (q.get "answer").isSome) then
                postSubmit user.id room.id questions form now db1
              else (db1, .fatal)
            | _ => (db1, .fatal)
          | .get =>
            let elapsed := now - startT
            let remaining := max 0 (quiz.duration * 60 - elapsed)
            if remaining ≤ 0 then
              (finalize_room_submissions (some room) db1 now, .expired)
            else (db1, .quizPage remaining)

/- ---------- close / extend routes ---------- -/

/-- Outcome of the close-room routes. -/
inductive CloseResult where
  | denied
  | closed
deriving DecidableEq

/-- src/app.py `close_room` (the GET route, lines 370-381): marks the room
inactive and redirects; it never calls the finalizer. -/
def close_room (user? : Option User) (room : Room) (db : DB) :
    Room × DB × CloseResult :=
  match user? with
  | none => (room, db, .denied)
  | some u =>
    if u.role ≠ "teacher" ∨ room.teacher_id ≠ u.id then (room, db, .denied)
    else ({ room with is_active := false }, db, .closed)

/-- src/app.py `close_room_post` (lines 385-400): marks the room inactive,
then finalizes pending submissions. -/
def close_room_post (user? : Option User) (room : Room) (db : DB)
    (now : Int) : Room × DB × CloseResult :=
  match user? with
  | none => (room, db, .denied)
  | some u =>
    if u.role ≠ "teacher" ∨ room.teacher_id ≠ u.id then (room, db, .denied)
    else
      let room' := { room with is_active := false }
      (room', finalize_room_submissions (some room') db now, .closed)

/-- Outcome of the extend route. -/
inductive ExtendResult where
  | denied
  | notRunning
  | extended
deriving DecidableEq

/-- src/app.py `extend_quiz_post` (lines 586-605): shift `quiz_start_time`
backward by the requested minutes (`timedelta(minutes=m)`), defaulting to 5
when the form value is missing or unparsable. -/
def extend_quiz_post (user? : Option User) (room : Room)
    (formMinutes : Option Int) : Room × ExtendResult :=
  match user? with
  | none => (room, .denied)
  | some u =>
    if u.role ≠ "teacher" ∨ room.teacher_id ≠ u.id then (room, .denied)
    else
      match room.quiz_start_time with
      | none => (room, .notRunning)
      | some t0 =>
        let minutes := formMinutes.getD 5
        ({ room with quiz_start_time := some (t0 - minutes * 60) }, .extended)

/- ---------- generic lemmas about the row operations ---------- -/

theorem find?_append_left {α} {p : α → Bool} {l l' : List α} {x : α}
    (h : l.find? p = some x) : (l ++ l').find? p = some x := by
  rw [List.find?_append, h]; rfl

theorem find?_append_right {α} {p : α → Bool} {l l' : List α}
    (h : l.find? p = none) : (l ++ l').find? p = l'.find? p := by
  rw [List.find?_append, h]; rfl

theorem find?_append_invisible {α} {p : α → Bool} {l : List α} {x : α}
    (h : p x = false) : (l ++ [x]).find? p = l.find? p := by
  have hx : List.find? p [x] = none := by
    rw [List.find?_cons_of_neg _ (by simp [h])]; rfl
  rw [List.find?_append, hx]
  cases l.find? p <;> rfl

theorem find?_updFirst_disjoint {α} (p q : α → Bool) (f : α → α) :
    ∀ l : List α, (∀ a, p a = true → q a = false) →
    (∀ a, p a = true → q (f a) = false) →
    List.find? q (updFirst p f l) = List.find? q l
  | [], _, _ => rfl
  | x :: xs, h1, h2 => by
    by_cases hp : p x = true
    · rw [updFirst, if_pos hp,
        List.find?_cons_of_neg _ (by simp [h2 x hp]),
        List.find?_cons_of_neg _ (by simp [h1 x hp])]
    · rw [updFirst, if_neg hp]
      cases hq : q x
      · rw [List.find?_cons_of_neg _ (by simp [hq]),
          List.find?_cons_of_neg _ (by simp [hq])]
        exact find?_updFirst_disjoint p q f xs h1 h2
      · rw [List.find?_cons_of_pos _ hq, List.find?_cons_of_pos _ hq]

theorem find?_updFirst_self {α} (q : α → Bool) (f : α → α)
    (hf : ∀ a, q a = true → q (f a) = true) :
    ∀ l : List α, List.find? q (updFirst q f l) = (List.find? q l).map f
  | [] => rfl
  | x :: xs => by
    by_cases hq : q x = true
    · rw [updFirst, if_pos hq, List.find?_cons_of_pos _ (hf x hq),
        List.find?_cons_of_pos _ hq]
      rfl
    · rw [updFirst, if_neg hq, List.find?_cons_of_neg _ hq,
        List.find?_cons_of_neg _ hq]
      exact find?_updFirst_self q f hf xs

/- ---------- frame lemmas for the finalize loop ---------- -/

theorem finalizeSheet_results (rid : Nat) (qs : List Json) (now : Int)
    (db : DB) (sid : Nat) :
    (finalizeSheet rid qs now db sid).results = db.results := by
  unfold finalizeSheet
  cases h : findSheet db sid rid <;> simp [h]

theorem finalizeSheet_quizzes (rid : Nat) (qs : List Json) (now : Int)
    (db : DB) (sid : Nat) :
    (finalizeSheet rid qs now db sid).quizzes = db.quizzes := by
  unfold finalizeSheet
  cases h : findSheet db sid rid <;> simp [h]

theorem finalizeStudent_quizzes (rid : Nat) (qs : List Json) (now : Int)
    (db : DB) (sid : Nat) :
    (finalizeStudent rid qs now db sid).quizzes = db.quizzes := by
  unfold finalizeStudent
  cases h : findResult db sid rid with
  | none => simp [h, finalizeSheet_quizzes]
  | some r =>
    by_cases hf : submittedFlag r.answers_json = true
    · simp [h, hf]
    · simp [h, hf, finalizeSheet_quizzes]

theorem foldl_finalizeStudent_quizzes (rid : Nat) (qs : List Json)
    (now : Int) :
    ∀ (l : List Nat) (db : DB),
    (l.foldl (finalizeStudent rid qs now) db).quizzes = db.quizzes
  | [], _ => rfl
  | s :: ss, db => by
    rw [List.foldl_cons, foldl_finalizeStudent_quizzes rid qs now ss,
      finalizeStudent_quizzes]

theorem finalize_quizzes (room? : Option Room) (db : DB) (now : Int) :
    (finalize_room_submissions room? db now).quizzes = db.quizzes := by
  cases room? with
  | none => rfl
  | some room =>
    simp only [finalize_room_submissions]
    split
    · rfl
    · split
      · exact foldl_finalizeStudent_quizzes _ _ _ _ _
      · split
        · exact foldl_finalizeStudent_quizzes _ _ _ _ _
        · rfl
      · rfl

theorem loadsQuestions_congr {room : Room} {db db' : DB}
    (h : db.quizzes = db'.quizzes) :
    loadsQuestions room db = loadsQuestions room db' := by
  unfold loadsQuestions getQuiz
  rw [h]

/- ---------- the all-unanswered serialization is never the sentinel ------- -/

theorem joinComma_cons_length (x : String) (l : List String) :
    x.length ≤ (joinComma (x :: l)).length := by
  cases l with
  | nil => simp [joinComma]
  | cons y ys => simp [joinComma, String.length_append]; omega

theorem braced_join_length (E : String) (L : List String) (hE : 1 ≤ E.length) :
    3 ≤ ("\x7b" ++ joinComma (E :: L) ++ "\x7d").length := by
  have hj := joinComma_cons_length E L
  simp only [String.length_append]
  have h1 : ("\x7b" : String).length = 1 := by decide
  have h2 : ("\x7d" : String).length = 1 := by decide
  omega

theorem defaultAnswersJson_length {n : Nat} (h : 1 ≤ n) :
    3 ≤ (defaultAnswersJson n).length := by
  obtain ⟨m, rfl⟩ : ∃ m, n = m + 1 := ⟨n - 1, by omega⟩
  unfold defaultAnswersJson answersDict
  rw [List.range_succ_eq_map, List.map_cons]
  simp only [jdump, jdumpObj]
  exact braced_join_length _ _ (by decide)

theorem submittedFlag_defaultAnswers {n : Nat} (h : 1 ≤ n) :
    submittedFlag (some (defaultAnswersJson n)) = true := by
  have hlen := defaultAnswersJson_length h
  have h1 : defaultAnswersJson n ≠ "" := by
    intro he; rw [he] at hlen; exact absurd hlen (by decide)
  have h2 : defaultAnswersJson n ≠ emptyMapStr := by
    intro he; rw [he] at hlen; exact absurd hlen (by decide)
  simp [submittedFlag, truthyStr, h1, h2]

/- ---------- per-student behavior of the finalize loop ---------- -/

theorem finalizeStudent_skip {rid : Nat} {qs : List Json} {now : Int}
    {db : DB} {sid : Nat} {r : StudentQuizResult}
    (hr : findResult db sid rid = some r)
    (hf : submittedFlag r.answers_json = true) :
    finalizeStudent rid qs now db sid = db := by
  unfold finalizeStudent
  rw [hr]
  simp [hf]

theorem resultKey_self (sid rid : Nat) (r : StudentQuizResult)
    (h1 : r.student_id = sid) (h2 : r.room_id = rid) :
    resultKey sid rid r = true := by
  simp [resultKey, h1, h2]

theorem resultKey_other {sid rid : Nat} (r : StudentQuizResult)
    (hne : r.student_id ≠ sid) : resultKey sid rid r = false := by
  simp [resultKey, hne]

theorem sheetKey_other {sid rid : Nat} (s : AnswerSheet)
    (hne : s.student_id ≠ sid) : sheetKey sid rid s = false := by
  simp [sheetKey, hne]

theorem finalizeSheet_other {rid : Nat} {qs : List Json} {now : Int}
    {db : DB} {s' sid : Nat} (hne : s' ≠ sid) :
    findSheet (finalizeSheet rid qs now db s') sid rid =
      findSheet db sid rid := by
  unfold finalizeSheet
  cases h : findSheet db s' rid with
  | none =>
    show findSheet { db with sheets := _ } sid rid = _
    unfold findSheet
    exact find?_append_invisible (by simp [sheetKey, hne])
  | some sh =>
    show findSheet { db with sheets := _ } sid rid = _
    unfold findSheet
    refine find?_updFirst_disjoint _ _ _ _ ?_ ?_
    · intro a ha
      have : a.student_id = s' := by
        simp [sheetKey] at ha
        exact ha.1
      exact sheetKey_other a (by rw [this]; exact hne)
    · intro a ha
      have : a.student_id = s' := by
        simp [sheetKey] at ha
        exact ha.1
      exact sheetKey_other _ (by simp [this]; exact hne)

theorem findResult_finalizeSheet (rid : Nat) (qs : List Json) (now : Int)
    (db : DB) (s' sid : Nat) :
    findResult (finalizeSheet rid qs now db s') sid rid =
      findResult db sid rid := by
  unfold findResult
  rw [finalizeSheet_results]

theorem finalizeStudent_other {rid : Nat} {qs : List Json} {now : Int}
    {db : DB} {s' sid : Nat} (hne : s' ≠ sid) :
    findResult (finalizeStudent rid qs now db s') sid rid =
      findResult db sid rid ∧
    findSheet (finalizeStudent rid qs now db s') sid rid =
      findSheet db sid rid := by
  cases h : findResult db s' rid with
  | none =>
    simp only [finalizeStudent, h]
    constructor
    · rw [findResult_finalizeSheet]
      unfold findResult
      exact find?_append_invisible (by simp [resultKey, hne])
    · rw [finalizeSheet_other hne]
      rfl
  | some r =>
    by_cases hf : submittedFlag r.answers_json = true
    · simp [finalizeStudent, h, hf]
    · have hf' : submittedFlag r.answers_json = false := by
        cases hx : submittedFlag r.answers_json
        · rfl
        · exact absurd hx hf
      simp only [finalizeStudent, h]
      rw [hf', if_neg (by decide)]
      constructor
      · rw [findResult_finalizeSheet]
        unfold findResult
        refine find?_updFirst_disjoint _ _ _ _ ?_ ?_
        · intro a ha
          have ha1 : a.student_id = s' := by
            simp [resultKey] at ha
            exact ha.1
          exact resultKey_other a (by rw [ha1]; exact hne)
        · intro a ha
          have ha1 : a.student_id = s' := by
            simp [resultKey] at ha
            exact ha.1
          exact resultKey_other _ (by simp only [ha1]; exact hne)
      · rw [finalizeSheet_other hne]
        rfl

/-- Projection of the row queries through a rebuilt database value. -/
theorem findResult_mk (qz : List Quiz) (rs : List StudentQuizResult)
    (sh : List AnswerSheet) (sid rid : Nat) :
    findResult ⟨qz, rs, sh⟩ sid rid = rs.find? (resultKey sid rid) := rfl

/-- Processing one student establishes their record: an already-submitted
record is kept verbatim, a missing or empty-answers one becomes the
score-0, all-unanswered auto record. -/
theorem finalizeStudent_self (rid : Nat) (qs : List Json) (now : Int)
    (db : DB) (sid : Nat) :
    ∃ r', findResult (finalizeStudent rid qs now db sid) sid rid = some r' ∧
      (1 ≤ qs.length → submittedFlag r'.answers_json = true) ∧
      ((findResult db sid rid = none ∨
        ∃ r0, findResult db sid rid = some r0 ∧
          submittedFlag r0.answers_json = false) →
        r'.score = 0 ∧
        r'.answers_json = some (defaultAnswersJson qs.length)) ∧
      (∀ r0, findResult db sid rid = some r0 →
        submittedFlag r0.answers_json = true → r' = r0) := by
  cases h : findResult db sid rid with
  | none =>
    refine ⟨⟨sid, rid, 0, some (defaultAnswersJson qs.length), none⟩,
      ?_, ?_, ?_, ?_⟩
    · simp only [finalizeStudent, h]
      rw [findResult_finalizeSheet, findResult_mk]
      unfold findResult at h
      rw [find?_append_right h]
      exact List.find?_cons_of_pos _ (by simp [resultKey])
    · intro hq
      exact submittedFlag_defaultAnswers hq
    · intro _
      exact ⟨rfl, rfl⟩
    · intro r0 h0
      exact absurd h0 (by simp)
  | some r0 =>
    by_cases hf : submittedFlag r0.answers_json = true
    · refine ⟨r0, ?_, fun _ => hf, ?_, ?_⟩
      · rw [finalizeStudent_skip h hf, h]
      · rintro (hc | ⟨r1, hr1, hf1⟩)
        · exact absurd hc (by simp)
        · obtain rfl : r0 = r1 := Option.some.inj hr1
          rw [hf] at hf1
          exact absurd hf1 (by decide)
      · intro r1 h1 _
        exact Option.some.inj h1
    · have hf' : submittedFlag r0.answers_json = false := by
        cases hx : submittedFlag r0.answers_json
        · rfl
        · exact absurd hx hf
      refine ⟨{ r0 with score := 0, answers_json := some (defaultAnswersJson qs.length) }, ?_, ?_, ?_, ?_⟩
      · simp only [finalizeStudent, h]
        rw [hf', if_neg (by decide)]
        rw [findResult_finalizeSheet, findResult_mk]
        unfold findResult at h
        rw [find?_updFirst_self (resultKey sid rid) _
          (fun a ha => by simpa [resultKey] using ha) db.results, h]
        rfl
      · intro hq
        exact submittedFlag_defaultAnswers hq
      · intro _
        exact ⟨rfl, rfl⟩
      · intro r1 h1 hfl
        obtain rfl : r0 = r1 := Option.some.inj h1
        rw [hfl] at hf'
        exact absurd hf' (by decide)

/-- A student whose current record is already submitted keeps that exact
record, and their sheet, across a whole finalize pass. -/
theorem fold_preserveRec {rid : Nat} {qs : List Json} {now : Int} {sid : Nat}
    {r : StudentQuizResult} :
    ∀ (l : List Nat) (db : DB),
    findResult db sid rid = some r → submittedFlag r.answers_json = true →
    findResult (l.foldl (finalizeStudent rid qs now) db) sid rid = some r ∧
    findSheet (l.foldl (finalizeStudent rid qs now) db) sid rid =
      findSheet db sid rid
  | [], _, hr, _ => ⟨hr, rfl⟩
  | s' :: ss, db, hr, hf => by
    rw [List.foldl_cons]
    by_cases hh : s' = sid
    · subst hh
      rw [finalizeStudent_skip hr hf]
      exact fold_preserveRec ss db hr hf
    · obtain ⟨h1, h2⟩ := @finalizeStudent_other rid qs now db s' sid hh
      obtain ⟨g1, g2⟩ := fold_preserveRec ss _ (h1.trans hr) hf
      exact ⟨g1, g2.trans h2⟩

/-- A student not in the processed list is completely untouched. -/
theorem fold_other {rid : Nat} {qs : List Json} {now : Int} {sid : Nat} :
    ∀ (l : List Nat) (db : DB), sid ∉ l →
    findResult (l.foldl (finalizeStudent rid qs now) db) sid rid =
      findResult db sid rid ∧
    findSheet (l.foldl (finalizeStudent rid qs now) db) sid rid =
      findSheet db sid rid
  | [], _, _ => ⟨rfl, rfl⟩
  | s' :: ss, db, hmem => by
    rw [List.foldl_cons]
    have hne : s' ≠ sid := fun he => hmem (he ▸ List.mem_cons_self s' ss)
    obtain ⟨h1, h2⟩ := @finalizeStudent_other rid qs now db s' sid hne
    obtain ⟨g1, g2⟩ := fold_other ss _
      (fun hx => hmem (List.mem_cons_of_mem _ hx))
    exact ⟨g1.trans h1, g2.trans h2⟩

/-- When every listed student already has a submitted record, a finalize
pass is the identity. -/
theorem fold_skip_all {rid : Nat} {qs : List Json} {now : Int} :
    ∀ (l : List Nat) (db : DB),
    (∀ s ∈ l, ∃ r, findResult db s rid = some r ∧
      submittedFlag r.answers_json = true) →
    l.foldl (finalizeStudent rid qs now) db = db
  | [], _, _ => rfl
  | s :: ss, db, h => by
    rw [List.foldl_cons]
    obtain ⟨r, hr, hf⟩ := h s (List.mem_cons_self s ss)
    rw [finalizeStudent_skip hr hf]
    exact fold_skip_all ss db (fun x hx => h x (List.mem_cons_of_mem _ hx))

/-- After a finalize pass over a list with at least one question, every
listed student has a submitted record, auto-filled when they had not
really submitted before the pass. -/
theorem fold_establish {rid : Nat} {qs : List Json} {now : Int}
    (hq : 1 ≤ qs.length) :
    ∀ (l : List Nat) (db : DB) (s : Nat), s ∈ l →
    ∃ r', findResult (l.foldl (finalizeStudent rid qs now) db) s rid =
        some r' ∧
      submittedFlag r'.answers_json = true ∧
      ((findResult db s rid = none ∨
        ∃ r0, findResult db s rid = some r0 ∧
          submittedFlag r0.answers_json = false) →
        r'.score = 0 ∧
        r'.answers_json = some (defaultAnswersJson qs.length)) ∧
      (∀ r0, findResult db s rid = some r0 →
        submittedFlag r0.answers_json = true → r' = r0)
  | s' :: ss, db, s, hmem => by
    rw [List.foldl_cons]
    by_cases hss' : s = s'
    · subst hss'
      obtain ⟨r', e1, e2, e3, e4⟩ := finalizeStudent_self rid qs now db s
      obtain ⟨g1, _⟩ := fold_preserveRec ss _ e1 (e2 hq)
      exact ⟨r', g1, e2 hq, e3, e4⟩
    · have hmem' : s ∈ ss := by
        cases hmem with
        | head => exact absurd rfl hss'
        | tail _ hx => exact hx
      obtain ⟨h1, _⟩ := @finalizeStudent_other rid qs now db s' s
        (fun he => hss' he.symm)
      obtain ⟨r', g1, g2, g3, g4⟩ := fold_establish hq ss
        (finalizeStudent rid qs now db s') s hmem'
      rw [h1] at g3 g4
      exact ⟨r', g1, g2, g3, g4⟩

/-- Variant of the previous lemma for a duplicate-free membership list,
with no constraint on the question count. -/
theorem fold_establish_nodup {rid : Nat} {qs : List Json} {now : Int} :
    ∀ (l : List Nat) (db : DB) (s : Nat), l.Nodup → s ∈ l →
    ∃ r', findResult (l.foldl (finalizeStudent rid qs now) db) s rid =
        some r' ∧
      ((findResult db s rid = none ∨
        ∃ r0, findResult db s rid = some r0 ∧
          submittedFlag r0.answers_json = false) →
        r'.score = 0 ∧
        r'.answers_json = some (defaultAnswersJson qs.length)) ∧
      (∀ r0, findResult db s rid = some r0 →
        submittedFlag r0.answers_json = true → r' = r0)
  | s' :: ss, db, s, hnd, hmem => by
    rw [List.foldl_cons]
    have hnd' := List.nodup_cons.mp hnd
    by_cases hss' : s = s'
    · subst hss'
      obtain ⟨r', e1, _, e3, e4⟩ := finalizeStudent_self rid qs now db s
      obtain ⟨g1, _⟩ := fold_other ss _ hnd'.1
      exact ⟨r', g1.trans e1, e3, e4⟩
    · have hmem' : s ∈ ss := by
        cases hmem with
        | head => exact absurd rfl hss'
        | tail _ hx => exact hx
      obtain ⟨h1, _⟩ := @finalizeStudent_other rid qs now db s' s
        (fun he => hss' he.symm)
      obtain ⟨r', g1, g3, g4⟩ := fold_establish_nodup ss
        (finalizeStudent rid qs now db s') s hnd'.2 hmem'
      rw [h1] at g3 g4
      exact ⟨r', g1, g3, g4⟩

/-- Every run of the finalizer on an existing room is either the identity
on the database or one pass of the per-student loop. -/
theorem finalize_some_cases (room : Room) (db : DB) (now : Int) :
    finalize_room_submissions (some room) db now = db ∨
    ∃ qs : List Json,
      ((loadsQuestions room db = none ∧ qs = []) ∨
        (loadsQuestions room db = some (Json.arr qs) ∧
          qs.all isObjJson = true)) ∧
      finalize_room_submissions (some room) db now =
        room.students.foldl (finalizeStudent room.id qs now) db := by
  cases hq : room.quiz_id with
  | none => exact Or.inl (by simp [finalize_room_submissions, hq])
  | some qid =>
    cases hl : loadsQuestions room db with
    | none =>
      exact Or.inr ⟨[], Or.inl ⟨rfl, rfl⟩,
        by simp [finalize_room_submissions, hq, hl]⟩
    | some v =>
      cases v with
      | arr qs =>
        by_cases ha : qs.all isObjJson = true
        · exact Or.inr ⟨qs, Or.inr ⟨rfl, ha⟩,
            by simp [finalize_room_submissions, hq, hl, ha]⟩
        · exact Or.inl (by simp [finalize_room_submissions, hq, hl, ha])
      | null => exact Or.inl (by simp [finalize_room_submissions, hq, hl])
      | bool b => exact Or.inl (by simp [finalize_room_submissions, hq, hl])
      | num n => exact Or.inl (by simp [finalize_room_submissions, hq, hl])
      | str s => exact Or.inl (by simp [finalize_room_submissions, hq, hl])
      | obj kvs => exact Or.inl (by simp [finalize_room_submissions, hq, hl])

/-- C2 (confirmed): for every room and every student whose SubmissionRecord
has non-empty answers (`answers_json` present, non-empty and not the
empty-map sentinel `"\x7b\x7d"`), running finalize on the room leaves that
student's SubmissionRecord (score and answers included, the whole row) and
their AnswerSheet completely unchanged. -/
theorem claim_C2_finalize_skips_submitted (room : Room) (db : DB) (now : Int)
    (sid : Nat) (r : StudentQuizResult) (s : String)
    (hr : findResult db sid room.id = some r)
    (hs : r.answers_json = some s) (hne : s ≠ "") (hnem : s ≠ emptyMapStr) :
    findResult (finalize_room_submissions (some room) db now) sid room.id =
      some r ∧
    findSheet (finalize_room_submissions (some room) db now) sid room.id =
      findSheet db sid room.id := by
  have hf : submittedFlag r.answers_json = true := by
    rw [hs]
    simp [submittedFlag, truthyStr, hne, hnem]
  rcases finalize_some_cases room db now with he | ⟨qs, _, he⟩
  · rw [he]
    exact ⟨hr, rfl⟩
  · rw [he]
    exact fold_preserveRec room.students db hr hf

/-- C2 witness: a concrete room with one submitted student (id 7) and one
never-submitted student (id 8); finalize leaves 7's record and sheet
untouched. -/
theorem claim_C2_witness :
    findResult
      (finalize_room_submissions (some ⟨1, 2, some 3, true, some 0, [7, 8]⟩)
        ⟨[⟨3, some "[\x7b\x7d]", 5⟩],
         [⟨7, 1, 2, some "\x7b\"0\": 1\x7d", some 0⟩],
         [⟨7, 1, 2, some "[]", none, 5⟩]⟩ 11) 7 1 =
      some ⟨7, 1, 2, some "\x7b\"0\": 1\x7d", some 0⟩ ∧
    findSheet
      (finalize_room_submissions (some ⟨1, 2, some 3, true, some 0, [7, 8]⟩)
        ⟨[⟨3, some "[\x7b\x7d]", 5⟩],
         [⟨7, 1, 2, some "\x7b\"0\": 1\x7d", some 0⟩],
         [⟨7, 1, 2, some "[]", none, 5⟩]⟩ 11) 7 1 =
      findSheet
        ⟨[⟨3, some "[\x7b\x7d]", 5⟩],
         [⟨7, 1, 2, some "\x7b\"0\": 1\x7d", some 0⟩],
         [⟨7, 1, 2, some "[]", none, 5⟩]⟩ 7 1 :=
  claim_C2_finalize_skips_submitted ⟨1, 2, some 3, true, some 0, [7, 8]⟩
    ⟨[⟨3, some "[\x7b\x7d]", 5⟩],
     [⟨7, 1, 2, some "\x7b\"0\": 1\x7d", some 0⟩],
     [⟨7, 1, 2, some "[]", none, 5⟩]⟩ 11 7
    ⟨7, 1, 2, some "\x7b\"0\": 1\x7d", some 0⟩ "\x7b\"0\": 1\x7d"
    rfl rfl (by decide) (by decide)

/-- C3 counterexample: with a quiz whose stored question list is empty
(`"[]"`), the auto-filled answers are the `"\x7b\x7d"` sentinel, so the
second finalize call re-processes the student and refreshes the
AnswerSheet's `created_at`: called at times 10 and then 20, the state after
the second call differs from the state after the first. -/
theorem claim_C3_counterexample :
    finalize_room_submissions (some ⟨1, 2, some 3, true, some 0, [7]⟩)
      (finalize_room_submissions (some ⟨1, 2, some 3, true, some 0, [7]⟩)
        ⟨[⟨3, some "[]", 5⟩], [], []⟩ 10) 20 ≠
    finalize_room_submissions (some ⟨1, 2, some 3, true, some 0, [7]⟩)
      ⟨[⟨3, some "[]", 5⟩], [], []⟩ 10 := by
  decide

/-- C3 amended (proved): for every room whose assigned quiz's stored
questions blob parses to a non-empty list, calling finalize twice in a row
(at any two times) yields exactly the state of the first call — no student
re-zeroed, no duplicate rows, no AnswerSheet field (created_at and
auto_submit_reason included) changed.  With an empty parsed question list
the guarantee fails (see the counterexample): the auto-filled answers equal
the not-yet-submitted sentinel, so the second call rewrites the auto
records and refreshes created_at. -/
theorem claim_C3_amended_idempotent (room : Room) (db : DB) (t1 t2 : Int)
    (qs : List Json) (hl : loadsQuestions room db = some (Json.arr qs))
    (hne : qs ≠ []) :
    finalize_room_submissions (some room)
      (finalize_room_submissions (some room) db t1) t2 =
    finalize_room_submissions (some room) db t1 := by
  obtain ⟨qid, hqid⟩ : ∃ qid, room.quiz_id = some qid := by
    cases hq0 : room.quiz_id
    · simp [loadsQuestions, hq0] at hl
    · exact ⟨_, rfl⟩
  have hlen : 1 ≤ qs.length := by
    cases qs
    · exact absurd rfl hne
    · simp
  by_cases ha : qs.all isObjJson = true
  · have e1 : finalize_room_submissions (some room) db t1 =
        room.students.foldl (finalizeStudent room.id qs t1) db := by
      simp [finalize_room_submissions, hqid, hl, ha]
    have hqz : (room.students.foldl (finalizeStudent room.id qs t1)
        db).quizzes = db.quizzes :=
      foldl_finalizeStudent_quizzes _ _ _ _ _
    have hl1 : loadsQuestions room
        (room.students.foldl (finalizeStudent room.id qs t1) db) =
        some (Json.arr qs) :=
      (loadsQuestions_congr hqz).trans hl
    have e2 : finalize_room_submissions (some room)
        (room.students.foldl (finalizeStudent room.id qs t1) db) t2 =
        room.students.foldl (finalizeStudent room.id qs t2)
          (room.students.foldl (finalizeStudent room.id qs t1) db) := by
      simp [finalize_room_submissions, hqid, hl1, ha]
    rw [e1, e2]
    apply fold_skip_all
    intro s hs
    obtain ⟨r', g1, g2, _, _⟩ := fold_establish hlen room.students db s hs
    exact ⟨r', g1, g2⟩
  · have e1 : finalize_room_submissions (some room) db t1 = db := by
      simp [finalize_room_submissions, hqid, hl, ha]
    have e2 : finalize_room_submissions (some room) db t2 = db := by
      simp [finalize_room_submissions, hqid, hl, ha]
    rw [e1, e2]

/-- C3 amended witness: one student, one question (an empty question
object), finalize at time 10 then 20 — the states coincide. -/
theorem claim_C3_amended_witness :
    finalize_room_submissions (some ⟨1, 2, some 3, true, some 0, [7]⟩)
      (finalize_room_submissions (some ⟨1, 2, some 3, true, some 0, [7]⟩)
        ⟨[⟨3, some "[\x7b\x7d]", 5⟩], [], []⟩ 10) 20 =
    finalize_room_submissions (some ⟨1, 2, some 3, true, some 0, [7]⟩)
      ⟨[⟨3, some "[\x7b\x7d]", 5⟩], [], []⟩ 10 :=
  claim_C3_amended_idempotent ⟨1, 2, some 3, true, some 0, [7]⟩
    ⟨[⟨3, some "[\x7b\x7d]", 5⟩], [], []⟩ 10 20 [Json.obj []]
    rfl (by decide)

/-- C10 (confirmed): the finalizer called on a missing room, or on a room
with no assigned quiz, is a complete no-op: the database (quizzes, every
SubmissionRecord, every AnswerSheet) is returned unchanged. -/
theorem claim_C10_finalize_noop (room? : Option Room) (db : DB) (now : Int)
    (h : room? = none ∨ ∃ room, room? = some room ∧ room.quiz_id = none) :
    finalize_room_submissions room? db now = db := by
  rcases h with rfl | ⟨room, rfl, hq⟩
  · rfl
  · simp [finalize_room_submissions, hq]

/-- C10 witness: a missing room over a non-trivial database, and a quizless
room with a member and no records — both calls change nothing. -/
theorem claim_C10_witness :
    finalize_room_submissions none ⟨[], [⟨7, 1, 0, none, none⟩], []⟩ 5 =
      ⟨[], [⟨7, 1, 0, none, none⟩], []⟩ ∧
    finalize_room_submissions (some ⟨1, 2, none, true, none, [7]⟩)
      ⟨[], [], []⟩ 5 = ⟨[], [], []⟩ :=
  ⟨claim_C10_finalize_noop none ⟨[], [⟨7, 1, 0, none, none⟩], []⟩ 5
      (Or.inl rfl),
   claim_C10_finalize_noop (some ⟨1, 2, none, true, none, [7]⟩)
      ⟨[], [], []⟩ 5 (Or.inr ⟨_, rfl, rfl⟩)⟩

/-- C4 (confirmed): the quiz-taking view's remaining time equals
`max(0, durationMinutes*60 - (now - quizStartTime))`; it agrees with the
spec's clock contract when a start time is present; the spec clock is 0 on
an absent start, and the view then never reaches the clock at all (it
redirects without serving the quiz page); the remaining time is 0 exactly
when `now ≥ start + duration*60`; and it is monotonically non-increasing
in `now` for fixed start and duration. -/
theorem claim_C4_quiz_clock (now t0 durationMinutes : Int) :
    remainingSeconds now t0 durationMinutes =
      max 0 (durationMinutes * 60 - (now - t0)) ∧
    remainingSecondsSpec now (some t0) durationMinutes =
      remainingSeconds now t0 durationMinutes ∧
    remainingSecondsSpec now none durationMinutes = 0 ∧
    (remainingSeconds now t0 durationMinutes = 0 ↔
      t0 + durationMinutes * 60 ≤ now) ∧
    (∀ n1 n2 : Int, n1 ≤ n2 →
      remainingSeconds n2 t0 durationMinutes ≤
        remainingSeconds n1 t0 durationMinutes) ∧
    (∀ (u : Option User) (room : Room) (db : DB) (m : Method)
        (f : SubmitForm), room.quiz_start_time = none →
      start_quiz_student u room db now m f = (db, .redirectIndex) ∨
      start_quiz_student u room db now m f = (db, .redirectRoomPage)) := by
  refine ⟨rfl, rfl, rfl, ?_, ?_, ?_⟩
  · simp only [remainingSeconds]
    omega
  · intro n1 n2 h
    simp only [remainingSeconds]
    omega
  · intro u room db m f hst
    cases u with
    | none => exact Or.inl rfl
    | some user =>
      by_cases hacc : user.role ≠ "student" ∨ user.id ∉ room.students
      · exact Or.inl (by simp [start_quiz_student, hacc])
      · right
        cases hq : room.quiz_id with
        | none => simp [start_quiz_student, hst, hq, hacc]
        | some qid =>
          cases hg : getQuiz db qid with
          | none => simp [start_quiz_student, hst, hq, hg, hacc]
          | some quiz => simp [start_quiz_student, hst, hq, hg, hacc]

/-- C4 witness: the clock at concrete points — expired at
`now = 400 = 100 + 300`, monotone between 350 and 450, and a
not-started room redirects. -/
theorem claim_C4_witness :
    remainingSeconds 400 100 5 = 0 ∧
    remainingSeconds 450 100 5 ≤ remainingSeconds 350 100 5 ∧
    (start_quiz_student (some ⟨7, "student"⟩) ⟨1, 2, some 3, true, none, [7]⟩
        ⟨[], [], []⟩ 7 .get ⟨fun _ => -1, none⟩ =
        (⟨[], [], []⟩, .redirectIndex) ∨
      start_quiz_student (some ⟨7, "student"⟩) ⟨1, 2, some 3, true, none, [7]⟩
        ⟨[], [], []⟩ 7 .get ⟨fun _ => -1, none⟩ =
        (⟨[], [], []⟩, .redirectRoomPage)) :=
  ⟨(claim_C4_quiz_clock 400 100 5).2.2.2.1.mpr (by decide),
   (claim_C4_quiz_clock 0 100 5).2.2.2.2.1 350 450 (by decide),
   (claim_C4_quiz_clock 7 0 5).2.2.2.2.2 (some ⟨7, "student"⟩)
     ⟨1, 2, some 3, true, none, [7]⟩ ⟨[], [], []⟩ .get
     ⟨fun _ => -1, none⟩ rfl⟩

/-- C6 (code bug): the extend route does shift `quiz_start_time` backward by
n minutes, but with the clock `max(0, duration*60 - (now - start))` an
earlier start means a larger elapsed time, so the remaining seconds
*decrease* by n*60 instead of increasing — contradicting the route's own
docstring ("Extend the remaining time"), its comment ("so remaining
increases") and its flash message.  Evaluated at the failing input: a
5-minute quiz started at t=100, observed at now=200 with 200 seconds left,
"extended" by 2 minutes, drops to 80 remaining seconds rather than
rising to 320. -/
theorem claim_C6_extend_bug :
    (extend_quiz_post (some ⟨2, "teacher"⟩)
        ⟨1, 2, some 3, true, some 100, [7]⟩ (some 2)).2 = .extended ∧
    (extend_quiz_post (some ⟨2, "teacher"⟩)
        ⟨1, 2, some 3, true, some 100, [7]⟩ (some 2)).1.quiz_start_time =
      some (100 - 2 * 60) ∧
    remainingSeconds 200 100 5 = 200 ∧
    remainingSeconds 200 (100 - 2 * 60) 5 = 80 := by
  decide

/-- The general form of the C6 divergence: whenever more than n*60 seconds
remain, the n-minute "extension" leaves exactly n*60 seconds fewer. -/
theorem extend_decreases_remaining (now t0 dur m : Int) (hm : 0 ≤ m)
    (hrun : m * 60 < remainingSeconds now t0 dur) :
    remainingSeconds now (t0 - m * 60) dur =
      remainingSeconds now t0 dur - m * 60 := by
  simp only [remainingSeconds] at hrun ⊢
  omega

/-- Closed instance of the general divergence lemma. -/
theorem extend_decreases_remaining_witness :
    remainingSeconds 200 (100 - 2 * 60) 5 =
      remainingSeconds 200 100 5 - 2 * 60 :=
  extend_decreases_remaining 200 100 5 2 (by decide) (by decide)

/-- C1 counterexample: a student POST at now = 1000 against a 5-minute quiz
started at 0 — the Quiz Clock's remaining seconds are 0 — is nevertheless
accepted and scored (result `.submitted 1`, the record overwritten with the
real answers and score), not routed to the finalize-then-results path: the
POST branch of `start_quiz_student` never consults the clock. -/
theorem claim_C1_counterexample :
    (start_quiz_student (some ⟨7, "student"⟩) ⟨1, 2, some 3, true, some 0, [7]⟩
      ⟨[⟨3, some "[\x7b\"text\": \"t\", \"options\": [\"x\", \"y\"], \"answer\": 1\x7d]", 5⟩], [], []⟩
      1000 .post ⟨fun _ => 1, none⟩).2 = .submitted 1 ∧
    findResult
      (start_quiz_student (some ⟨7, "student"⟩) ⟨1, 2, some 3, true, some 0, [7]⟩
        ⟨[⟨3, some "[\x7b\"text\": \"t\", \"options\": [\"x\", \"y\"], \"answer\": 1\x7d]", 5⟩], [], []⟩
        1000 .post ⟨fun _ => 1, none⟩).1 7 1 =
      some ⟨7, 1, 1, some "\x7b\"0\": 1\x7d", some 1000⟩ := by
  decide

/-- C1 amended (proved): only the GET quiz-taking view consults the Quiz
Clock: a GET made when the remaining seconds are 0 routes to the Room
Finalizer's expiry path (finalize the whole room, then redirect to
results), while a POST is accepted and scored regardless of the remaining
time — the source checks the clock only after the POST branch has already
returned. -/
theorem claim_C1_amended_post_never_checks_clock (u : User) (room : Room)
    (db : DB) (now : Int) (form : SubmitForm) (qid : Nat) (quiz : Quiz)
    (qs : List Json) (t0 : Int) (qstext : String)
    (hrole : u.role = "student") (hmem : u.id ∈ room.students)
    (hq : room.quiz_id = some qid) (hg : getQuiz db qid = some quiz)
    (hst : room.quiz_start_time = some t0)
    (hqs : quiz.questions_json = some qstext)
    (hparse : jparse qstext = some (Json.arr qs))
    (hshape : qs.all (fun q => isObjJson q && (q.get "answer").isSome) =
      true) :
    (∃ sc, (start_quiz_student (some u) room db now .post form).2 =
      .submitted sc) ∧
    (t0 + quiz.duration * 60 ≤ now →
      start_quiz_student (some u) room db now .get form =
        (finalize_room_submissions (some room)
          (startRecord u.id room.id now db) now, .expired)) := by
  have hacc : ¬(u.role ≠ "student" ∨ u.id ∉ room.students) := by
    simp [hrole, hmem]
  constructor
  · have e : start_quiz_student (some u) room db now .post form =
        postSubmit u.id room.id qs form now
          (startRecord u.id room.id now db) := by
      simp [start_quiz_student, hq, hg, hst, hqs, hparse, hacc, hshape]
    rw [e]
    exact ⟨_, rfl⟩
  · intro hexp
    have hle : max 0 (quiz.duration * 60 - (now - t0)) ≤ 0 := by omega
    have e : start_quiz_student (some u) room db now .get form =
        (finalize_room_submissions (some room)
          (startRecord u.id room.id now db) now, .expired) := by
      simp only [start_quiz_student, hq, hg, hst, hqs, hparse]
      rw [if_neg hacc, if_pos hle]
    exact e

/-- C1 amended witness: the same expired room taken through both methods —
the POST returns a submitted score, the GET routes to the expiry path. -/
theorem claim_C1_amended_witness :
    (∃ sc, (start_quiz_student (some ⟨7, "student"⟩)
      ⟨1, 2, some 3, true, some 0, [7]⟩ ⟨[⟨3, some "[]", 5⟩], [], []⟩
      1000 .post ⟨fun _ => 1, none⟩).2 = .submitted sc) ∧
    (start_quiz_student (some ⟨7, "student"⟩)
      ⟨1, 2, some 3, true, some 0, [7]⟩ ⟨[⟨3, some "[]", 5⟩], [], []⟩
      1000 .get ⟨fun _ => 1, none⟩).2 = .expired := by
  have h := claim_C1_amended_post_never_checks_clock ⟨7, "student"⟩
    ⟨1, 2, some 3, true, some 0, [7]⟩ ⟨[⟨3, some "[]", 5⟩], [], []⟩
    1000 ⟨fun _ => 1, none⟩ 3 ⟨3, some "[]", 5⟩ [] 0 "[]"
    rfl (by decide) rfl rfl rfl rfl rfl rfl
  refine ⟨h.1, ?_⟩
  rw [h.2 (by decide)]

/-- C8 counterexample: the GET close-room route marks the room inactive and
returns `.closed`, but leaves the database completely untouched — member 7,
who never submitted, still has no SubmissionRecord at all, because this
route never invokes the finalizer (only the POST route does). -/
theorem claim_C8_counterexample :
    (close_room (some ⟨2, "teacher"⟩) ⟨1, 2, some 3, true, some 0, [7]⟩
        ⟨[⟨3, some "[\x7b\x7d]", 5⟩], [], []⟩).2.2 = .closed ∧
    (close_room (some ⟨2, "teacher"⟩) ⟨1, 2, some 3, true, some 0, [7]⟩
        ⟨[⟨3, some "[\x7b\x7d]", 5⟩], [], []⟩).1.is_active = false ∧
    (close_room (some ⟨2, "teacher"⟩) ⟨1, 2, some 3, true, some 0, [7]⟩
        ⟨[⟨3, some "[\x7b\x7d]", 5⟩], [], []⟩).2.1 =
      ⟨[⟨3, some "[\x7b\x7d]", 5⟩], [], []⟩ ∧
    findResult ((close_room (some ⟨2, "teacher"⟩)
        ⟨1, 2, some 3, true, some 0, [7]⟩
        ⟨[⟨3, some "[\x7b\x7d]", 5⟩], [], []⟩).2.1) 7 1 = none := by
  decide

/-- C8 amended (proved): only the POST close-room route both marks the room
inactive and invokes finalize; after it, every never-submitted member of a
room with an assigned quiz (stored questions parsing to a list of question
objects, duplicate-free membership) holds a zero-score, all-unanswered
SubmissionRecord.  The GET close-room route only marks the room inactive
and returns with the database unchanged. -/
theorem claim_C8_amended_only_post_finalizes (u : User) (room : Room)
    (db : DB) (now : Int) (qs : List Json)
    (hrole : u.role = "teacher") (hown : room.teacher_id = u.id)
    (hl : loadsQuestions room db = some (Json.arr qs))
    (ha : qs.all isObjJson = true) (hnd : room.students.Nodup) :
    close_room (some u) room db =
      ({ room with is_active := false }, db, .closed) ∧
    (close_room_post (some u) room db now).1 =
      { room with is_active := false } ∧
    (close_room_post (some u) room db now).2.2 = .closed ∧
    (∀ s ∈ room.students,
      (findResult db s room.id = none ∨
        ∃ r0, findResult db s room.id = some r0 ∧
          submittedFlag r0.answers_json = false) →
      ∃ r', findResult
          ((close_room_post (some u) room db now).2.1) s room.id = some r' ∧
        r'.score = 0 ∧
        r'.answers_json = some (defaultAnswersJson qs.length)) := by
  have hacc : ¬(u.role ≠ "teacher" ∨ room.teacher_id ≠ u.id) := by
    simp [hrole, hown]
  obtain ⟨qid, hqid⟩ : ∃ qid, room.quiz_id = some qid := by
    cases hq0 : room.quiz_id
    · simp [loadsQuestions, hq0] at hl
    · exact ⟨_, rfl⟩
  have e1 : close_room (some u) room db =
      ({ room with is_active := false }, db, .closed) := by
    simp [close_room, hacc]
  have e2 : close_room_post (some u) room db now =
      ({ room with is_active := false },
        finalize_room_submissions (some { room with is_active := false })
          db now, .closed) := by
    simp [close_room_post, hacc]
  have hl' : loadsQuestions { room with is_active := false } db =
      some (Json.arr qs) := hl
  have e3 : finalize_room_submissions
      (some { room with is_active := false }) db now =
      room.students.foldl (finalizeStudent room.id qs now) db := by
    rw [hqid] at hl'
    simp only [finalize_room_submissions, hqid, hl']
    rw [if_pos ha]
  refine ⟨e1, by rw [e2], by rw [e2], ?_⟩
  intro s hs hpre
  rw [e2]
  show ∃ r', findResult (finalize_room_submissions
    (some { room with is_active := false }) db now) s room.id = some r' ∧ _
  rw [e3]
  obtain ⟨r', g1, g3, _⟩ := fold_establish_nodup room.students db s hnd hs
  obtain ⟨hsc, hans⟩ := g3 hpre
  exact ⟨r', g1, hsc, hans⟩

/-- C8 amended witness: a one-member room with a one-question quiz; the GET
route leaves the database alone, and after the POST route the member holds
the zero-score, all-unanswered record. -/
theorem claim_C8_amended_witness :
    close_room (some ⟨2, "teacher"⟩) ⟨1, 2, some 3, true, some 0, [7]⟩
        ⟨[⟨3, some "[\x7b\x7d]", 5⟩], [], []⟩ =
      (⟨1, 2, some 3, false, some 0, [7]⟩,
        ⟨[⟨3, some "[\x7b\x7d]", 5⟩], [], []⟩, .closed) ∧
    (∃ r', findResult ((close_room_post (some ⟨2, "teacher"⟩)
        ⟨1, 2, some 3, true, some 0, [7]⟩
        ⟨[⟨3, some "[\x7b\x7d]", 5⟩], [], []⟩ 10).2.1) 7 1 = some r' ∧
      r'.score = 0 ∧ r'.answers_json = some (defaultAnswersJson 1)) := by
  have h := claim_C8_amended_only_post_finalizes ⟨2, "teacher"⟩
    ⟨1, 2, some 3, true, some 0, [7]⟩ ⟨[⟨3, some "[\x7b\x7d]", 5⟩], [], []⟩
    10 [Json.obj []] rfl rfl rfl rfl (by decide)
  exact ⟨h.1, h.2.2.2 7 (by decide) (Or.inl rfl)⟩

/-- The finalizer's questions read degrades gracefully: whenever the stored
blob fails to parse, the guarded load falls back to the empty question
list (the `try/except` of src/app.py lines 158-161). -/
theorem loadsQuestions_malformed (room : Room) (db : DB) (qid : Nat)
    (quiz : Quiz) (s : String) (hq : room.quiz_id = some qid)
    (hg : getQuiz db qid = some quiz) (hqs : quiz.questions_json = some s)
    (hbad : jparse s = none) : loadsQuestions room db = none := by
  unfold loadsQuestions
  simp only [hq, hg, hqs]
  by_cases he : s = ""
  · simp [he]
  · rw [if_neg he, hbad]

/-- Closed instance of the graceful-fallback lemma. -/
theorem loadsQuestions_malformed_witness :
    loadsQuestions ⟨1, 2, some 3, true, some 0, [7]⟩
      ⟨[⟨3, some "not json", 5⟩], [], []⟩ = none :=
  loadsQuestions_malformed ⟨1, 2, some 3, true, some 0, [7]⟩
    ⟨[⟨3, some "not json", 5⟩], [], []⟩ 3 ⟨3, some "not json", 5⟩
    "not json" rfl rfl rfl rfl

/-- C9 (code bug): on the same room whose stored `questions_json` is the
malformed blob `"not json"`, the finalizer degrades gracefully (it treats
the blob as an empty question list and still auto-fills the student's
record), but the student quiz-taking view's `json.loads` at src/app.py
line 620 has no `try/except`: the GET raises (HTTP 500) without touching
the database, contradicting "malformed persisted JSON must degrade
gracefully at every read site". -/
theorem claim_C9_quiz_view_fatal_on_malformed :
    start_quiz_student (some ⟨7, "student"⟩) ⟨1, 2, some 3, true, some 0, [7]⟩
      ⟨[⟨3, some "not json", 5⟩], [], []⟩ 10 .get ⟨fun _ => -1, none⟩ =
      (⟨[⟨3, some "not json", 5⟩], [], []⟩, .fatal) ∧
    start_quiz_student (some ⟨7, "student"⟩) ⟨1, 2, some 3, true, some 0, [7]⟩
      ⟨[⟨3, some "not json", 5⟩], [], []⟩ 10 .post ⟨fun _ => -1, none⟩ =
      (⟨[⟨3, some "not json", 5⟩], [], []⟩, .fatal) ∧
    findResult (finalize_room_submissions
      (some ⟨1, 2, some 3, true, some 0, [7]⟩)
      ⟨[⟨3, some "not json", 5⟩], [], []⟩ 10) 7 1 =
      some ⟨7, 1, 0, some "\x7b\x7d", none⟩ := by
  decide

/- ---------- C5: answer resolution ---------- -/

/-- Statement-level helper: is a string a single alphabetic character?
(The case split the resolution algorithm branches on.) -/
def singleAlphaB (a : String) : Bool :=
  match a.data with
  | [c] => c.isAlpha
  | _ => false

/-- When the stripped-lowercased answer string is not a single alphabetic
character, resolution falls through to the option-match / digits / error
chain. -/
theorem resolveAnswerIdx_str_fallback (idx : Nat) (s : String)
    (ol : List Json) (hno : singleAlphaB (pyLower (pyStrip s)) = false) :
    resolveAnswerIdx idx (some (.str s)) ol =
      strAnswerFallback idx s (pyLower (pyStrip s)) ol := by
  cases hd : (pyLower (pyStrip s)).data with
  | nil => simp [resolveAnswerIdx, hd]
  | cons c tl =>
    cases tl with
    | nil =>
      have hcf : c.isAlpha = false := by
        unfold singleAlphaB at hno
        rw [hd] at hno
        exact hno
      simp [resolveAnswerIdx, hd, hcf]
    | cons d tl' => simp [resolveAnswerIdx, hd]

/-- C5 counterexample: the answer string `" b "` is not a single alphabetic
character, matches no option of `["x", "y"]` and is not all digits, so per
the claim the normalizer must fail with an unknown-answer-format error; the
code strips and lowercases the string first, so it maps `" b "` to index 1
and accepts the question. -/
theorem claim_C5_counterexample :
    normalize_questions (.arr [.obj [("text", .str "t"),
      ("options", .arr [.str "x", .str "y"]),
      ("answer", .str " b ")]]) =
      .ok [⟨.str "t", [.str "x", .str "y"], 1⟩] := by
  rfl

/-- C5 amended (proved): the normalizer resolves the answer as — an integer
is used directly as the index (a JSON boolean being a Python `int`, it
resolves to 1/0); a string is first stripped of surrounding whitespace and
lowercased, and if the result is a single alphabetic character it maps to
that character's alphabet position; otherwise, if the *original* string
exactly matches an option value, that option's position is used; otherwise,
if the stripped-lowercased string is all digits, it is parsed as an integer
index; otherwise resolution fails with the unknown-answer-format error; a
missing answer field is an error; and the accepted index always satisfies
`0 ≤ index < len(options)`, an out-of-range index failing with the error
naming the question index. -/
theorem claim_C5_amended_answer_resolution (idx : Nat) (ol : List Json) :
    (∀ n : Int, resolveAnswerIdx idx (some (.num n)) ol = .ok n) ∧
    (∀ b : Bool, resolveAnswerIdx idx (some (.bool b)) ol =
      .ok (if b then 1 else 0)) ∧
    (∀ (s : String) (c : Char), (pyLower (pyStrip s)).data = [c] →
      c.isAlpha = true →
      resolveAnswerIdx idx (some (.str s)) ol =
        .ok ((c.toNat : Int) - 97)) ∧
    (∀ (s : String) (i : Nat),
      singleAlphaB (pyLower (pyStrip s)) = false →
      ol.findIdx? (fun o => o == Json.str s) = some i →
      resolveAnswerIdx idx (some (.str s)) ol = .ok (i : Int)) ∧
    (∀ s : String, singleAlphaB (pyLower (pyStrip s)) = false →
      ol.findIdx? (fun o => o == Json.str s) = none →
      allDigits (pyLower (pyStrip s)) = true →
      resolveAnswerIdx idx (some (.str s)) ol =
        .ok ((digitsVal (pyLower (pyStrip s)).data : Nat) : Int)) ∧
    (∀ s : String, singleAlphaB (pyLower (pyStrip s)) = false →
      ol.findIdx? (fun o => o == Json.str s) = none →
      allDigits (pyLower (pyStrip s)) = false →
      resolveAnswerIdx idx (some (.str s)) ol =
        .error s!"Question at index {idx} has unknown answer format") ∧
    (resolveAnswerIdx idx none ol =
      .error s!"Question at index {idx} missing answer") ∧
    (∀ q nq, normalizeQuestion idx q = .ok nq →
      resolveAnswerIdx idx (q.get "answer") nq.options = .ok nq.answer ∧
      0 ≤ nq.answer ∧ nq.answer < (nq.options.length : Int)) ∧
    (∀ (kvs : List (String × Json)) (opts : Json) (ol' : List Json) (j : Int),
      pyTruthy (pyOr ((Json.obj kvs).get "text")
        (pyOr ((Json.obj kvs).get "question") ((Json.obj kvs).get "q"))) =
        true →
      (Json.obj kvs).get "options" = some opts → opts ≠ .null →
      resolveOptions idx opts = .ok ol' →
      resolveAnswerIdx idx ((Json.obj kvs).get "answer") ol' = .ok j →
      ¬(0 ≤ j ∧ j < (ol'.length : Int)) →
      normalizeQuestion idx (Json.obj kvs) =
        .error s!"Question at index {idx} has answer index {j} out of range") := by
  refine ⟨fun n => rfl, fun b => rfl, ?_, ?_, ?_, ?_, rfl, ?_, ?_⟩
  · intro s c h1 h2
    simp [resolveAnswerIdx, h1, h2]
  · intro s i hno hfi
    rw [resolveAnswerIdx_str_fallback idx s ol hno]
    simp [strAnswerFallback, hfi]
  · intro s hno hfi hdig
    rw [resolveAnswerIdx_str_fallback idx s ol hno]
    simp [strAnswerFallback, hfi, hdig]
  · intro s hno hfi hdig
    rw [resolveAnswerIdx_str_fallback idx s ol hno]
    simp [strAnswerFallback, hfi, hdig]
  · intro q nq h
    cases q with
    | obj kvs =>
      simp only [normalizeQuestion] at h
      split at h
      · exact absurd h (by simp)
      · split at h
        · exact absurd h (by simp)
        · exact absurd h (by simp)
        · split at h
          · exact absurd h (by simp)
          · split at h
            · exact absurd h (by simp)
            · split at h
              · rename_i hrange
                obtain rfl := Except.ok.inj h
                exact ⟨by assumption, hrange.1, hrange.2⟩
              · exact absurd h (by simp)
    | null => exact absurd h (by simp [normalizeQuestion])
    | bool b => exact absurd h (by simp [normalizeQuestion])
    | num n => exact absurd h (by simp [normalizeQuestion])
    | str s => exact absurd h (by simp [normalizeQuestion])
    | arr xs => exact absurd h (by simp [normalizeQuestion])
  · intro kvs opts ol' j htext hopts hnn hro hra hnr
    cases opts with
    | null => exact absurd rfl hnn
    | bool b => simp [normalizeQuestion, htext, hopts, hro, hra, hnr]
    | num n => simp [normalizeQuestion, htext, hopts, hro, hra, hnr]
    | str s => simp [normalizeQuestion, htext, hopts, hro, hra, hnr]
    | arr xs => simp [normalizeQuestion, htext, hopts, hro, hra, hnr]
    | obj kvs2 => simp [normalizeQuestion, htext, hopts, hro, hra, hnr]

/-- C5 amended witness: the amended resolution at concrete inputs — integer
1, letter " b " (stripped/lowercased), option literal "yy", digit string
"1", unknown string "zz", and a concrete out-of-range question. -/
theorem claim_C5_amended_witness :
    resolveAnswerIdx 0 (some (.num 1)) [.str "x", .str "y"] = .ok 1 ∧
    resolveAnswerIdx 0 (some (.str " b ")) [.str "x", .str "y"] = .ok 1 ∧
    resolveAnswerIdx 0 (some (.str "yy")) [.str "xx", .str "yy"] = .ok 1 ∧
    resolveAnswerIdx 0 (some (.str "1")) [.str "x", .str "yy"] = .ok 1 ∧
    resolveAnswerIdx 0 (some (.str "zz")) [.str "x", .str "y"] =
      .error "Question at index 0 has unknown answer format" ∧
    resolveAnswerIdx 0 none [.str "x", .str "y"] =
      .error "Question at index 0 missing answer" ∧
    normalizeQuestion 0 (.obj [("text", .str "t"),
        ("options", .arr [.str "x"]), ("answer", .num 5)]) =
      .error "Question at index 0 has answer index 5 out of range" := by
  have h := claim_C5_amended_answer_resolution 0 [Json.str "x", Json.str "y"]
  have h2 := claim_C5_amended_answer_resolution 0
    [Json.str "xx", Json.str "yy"]
  have h3 := claim_C5_amended_answer_resolution 0 [Json.str "x", Json.str "yy"]
  have h4 := claim_C5_amended_answer_resolution 0 [Json.str "x"]
  refine ⟨h.1 1, ?_, ?_, ?_, ?_, h.2.2.2.2.2.2.1, ?_⟩
  · exact h.2.2.1 " b " 'b' rfl rfl
  · exact h2.2.2.2.1 "yy" 1 rfl rfl
  · exact h3.2.2.2.2.1 "1" rfl rfl rfl
  · exact h.2.2.2.2.2.1 "zz" rfl rfl rfl
  · exact h4.2.2.2.2.2.2.2.2 [("text", .str "t"),
      ("options", .arr [.str "x"]), ("answer", .num 5)]
      (.arr [.str "x"]) [.str "x"] 5 rfl rfl (by simp) rfl rfl (by decide)

/- ---------- C7: options resolution and order preservation ---------- -/

/-- The enumerated normalization loop succeeds exactly elementwise, with
the output in input order. -/
theorem normList_spec : ∀ (k : Nat) (qs : List Json)
    (out : List NormQuestion), normList k qs = .ok out →
    out.length = qs.length ∧
    ∀ i (hi : i < out.length) (hq : i < qs.length),
      normalizeQuestion (k + i) (qs.get ⟨i, hq⟩) = .ok (out.get ⟨i, hi⟩)
  | _, [], out, h => by
    obtain rfl : ([] : List NormQuestion) = out := Except.ok.inj h
    exact ⟨rfl, fun i hi => absurd hi (by simp)⟩
  | k, q :: rest, out, h => by
    cases hq1 : normalizeQuestion k q with
    | error e => simp [normList, hq1] at h
    | ok nq =>
      cases h2 : normList (k + 1) rest with
      | error e => simp [normList, hq1, h2] at h
      | ok out' =>
        simp only [normList, hq1, h2] at h
        obtain rfl : nq :: out' = out := Except.ok.inj h
        obtain ⟨hlen, hidx⟩ := normList_spec (k + 1) rest out' h2
        constructor
        · simp [hlen]
        · intro i hi hq
          cases i with
          | zero => simpa using hq1
          | succ i' =>
            have hstep := hidx i' (by simpa using hi) (by simpa using hq)
            have harith : k + 1 + i' = k + (i' + 1) := by omega
            rw [harith] at hstep
            simpa using hstep

/-- C7 (confirmed): the normalizer resolves options as the claim states —
a mapping containing any of the keys a, b, c, d yields exactly those
present keys' values in that fixed order (other keys ignored); a mapping
with none of those keys yields all its values ordered by key
lexicographically (the key list used is a sorted permutation of the
mapping's keys); a sequence is used as-is; any other non-null type fails
with an error naming the question index (a null or missing options field
fails with the missing-options error, also naming the index); and the
normalized output preserves the input question order, element i of the
output coming from element i of the input. -/
theorem claim_C7_options_resolution (idx : Nat) :
    (∀ kvs : List (String × Json),
      (["a", "b", "c", "d"].filter (fun k => dictHas kvs k)) ≠ [] →
      resolveOptions idx (.obj kvs) =
        .ok ((["a", "b", "c", "d"].filter (fun k => dictHas kvs k)).map
          (fun k => (dictGet kvs k).getD .null))) ∧
    (∀ kvs : List (String × Json),
      (["a", "b", "c", "d"].filter (fun k => dictHas kvs k)) = [] →
      resolveOptions idx (.obj kvs) =
        .ok (((dictKeys kvs).insertionSort strLe).map
          (fun k => (dictGet kvs k).getD .null)) ∧
      List.Sorted strLe ((dictKeys kvs).insertionSort strLe) ∧
      List.Perm ((dictKeys kvs).insertionSort strLe) (dictKeys kvs)) ∧
    (∀ xs : List Json, resolveOptions idx (.arr xs) = .ok xs) ∧
    (∀ j : Json, (∀ kvs, j ≠ .obj kvs) → (∀ xs, j ≠ .arr xs) → j ≠ .null →
      resolveOptions idx j =
        .error s!"Question at index {idx} has invalid options type") ∧
    (∀ kvs : List (String × Json),
      pyTruthy (pyOr ((Json.obj kvs).get "text")
        (pyOr ((Json.obj kvs).get "question") ((Json.obj kvs).get "q"))) =
        true →
      ((Json.obj kvs).get "options" = none ∨
        (Json.obj kvs).get "options" = some .null) →
      normalizeQuestion idx (.obj kvs) =
        .error s!"Question at index {idx} is missing options") ∧
    (∀ qs out, normalize_questions (.arr qs) = .ok out →
      out.length = qs.length ∧
      ∀ i (hi : i < out.length) (hq : i < qs.length),
        normalizeQuestion i (qs.get ⟨i, hq⟩) = .ok (out.get ⟨i, hi⟩)) := by
  refine ⟨?_, ?_, fun xs => rfl, ?_, ?_, ?_⟩
  · intro kvs hne
    simp only [resolveOptions]
    cases horder : ["a", "b", "c", "d"].filter (fun k => dictHas kvs k) with
    | nil => exact absurd horder hne
    | cons a l => simp [horder]
  · intro kvs horder
    refine ⟨by simp [resolveOptions, horder], ?_, ?_⟩
    · exact List.sorted_insertionSort strLe (dictKeys kvs)
    · exact List.perm_insertionSort strLe (dictKeys kvs)
  · intro j hobj harr hnull
    cases j with
    | null => exact absurd rfl hnull
    | bool b => rfl
    | num n => rfl
    | str s => rfl
    | arr xs => exact absurd rfl (harr xs)
    | obj kvs => exact absurd rfl (hobj kvs)
  · intro kvs htext hopts
    rcases hopts with hopts | hopts <;>
      simp [normalizeQuestion, htext, hopts]
  · intro qs out h
    have := normList_spec 0 qs out h
    refine ⟨this.1, ?_⟩
    intro i hi hq
    have hstep := this.2 i hi hq
    simpa using hstep

/-- C7 witness: the three option shapes and an invalid one at concrete
inputs, plus order preservation over a concrete two-question upload. -/
theorem claim_C7_witness :
    resolveOptions 0 (.obj [("b", .str "B"), ("a", .str "A"),
      ("z", .str "Z")]) = .ok [.str "A", .str "B"] ∧
    resolveOptions 0 (.obj [("q2", .str "two"), ("q1", .str "one"),
      ("p9", .str "nine")]) =
      .ok [.str "nine", .str "one", .str "two"] ∧
    resolveOptions 0 (.arr [.str "x", .num 4]) = .ok [.str "x", .num 4] ∧
    resolveOptions 1 (.str "oops") =
      .error "Question at index 1 has invalid options type" ∧
    normalizeQuestion 1 (.obj [("text", .str "t2"),
      ("options", .arr [.str "u", .str "v"]), ("answer", .num 1)]) =
      .ok ⟨.str "t2", [.str "u", .str "v"], 1⟩ := by
  have h0 := claim_C7_options_resolution 0
  have h1 := claim_C7_options_resolution 1
  refine ⟨?_, ?_, h0.2.2.1 [.str "x", .num 4], ?_, ?_⟩
  · exact h0.1 [("b", .str "B"), ("a", .str "A"), ("z", .str "Z")]
      (by decide)
  · exact (h0.2.1 [("q2", .str "two"), ("q1", .str "one"),
      ("p9", .str "nine")] (by decide)).1
  · exact h1.2.2.2.1 (.str "oops") (fun kvs h => Json.noConfusion h)
      (fun xs h => Json.noConfusion h) (fun h => Json.noConfusion h)
  · exact (h0.2.2.2.2.2
      [.obj [("text", .str "t1"), ("options", .arr [.str "x", .str "y"]),
        ("answer", .num 0)],
       .obj [("text", .str "t2"), ("options", .arr [.str "u", .str "v"]),
        ("answer", .num 1)]]
      [⟨.str "t1", [.str "x", .str "y"], 0⟩,
       ⟨.str "t2", [.str "u", .str "v"], 1⟩] rfl).2 1 (by decide) (by decide)

end ArmyQuiz
